import Mathlib

/-!
Verification of the mark-file-read VS Code extension's logical core:
the in-memory mark store (a JS `Map` from file path to mark record),
the decoration presentation mapping, the change-notification logic,
and JSON persistence (save/load round-trip), as implemented in
`src/MarkDecorationProvider.ts` (main extension) and the divergent
`MarkManager` variant.

Modelling conventions:
* The global `fileMarks : Map<string, FileMark>` is modelled as an
  association list `Store := List (String × FileMark)`; `mapGet`,
  `mapSet`, `mapHas`, `mapDelete` model the ECMAScript
  `Map.prototype.get / set / has / delete` operations used by the code
  (set replaces in place or appends; delete removes the entry and
  returns whether it was present).
* Host-visible side effects (firing the decoration-change event with a
  single URI or a URI array, writing the persistence file, showing an
  error or warning notification) are recorded in an explicit effect
  list `List Eff`; a command handler becomes a function from the store
  (plus its inputs and an environment flag for write success) to the
  new store and the emitted effects.
* `Date.now()` is passed in as an explicit `now : Nat` argument;
  `vscode.window.showInputBox` resolving to `undefined` (user cancel)
  is an `Option String` argument.
-/

set_option autoImplicit false

namespace MarkFileRead

/-- The `FileMarkType` string enum of the main extension:
`READ = 'read'`, `PARTIAL = 'partial'`, `UNREAD = 'unread'`. -/
inductive FileMarkType where
  | READ
  | PARTIAL
  | UNREAD
deriving DecidableEq, Repr

/-- The `FileMark` interface: `{ type, note, timestamp }`
(timestamp in milliseconds since epoch, modelled as `Nat`). -/
structure FileMark where
  type : FileMarkType
  note : String
  timestamp : Nat
deriving DecidableEq, Repr

/-- The global `fileMarks : Map<string, FileMark>`, as an association
list in insertion order with (by `Map` semantics) unique keys. -/
abbrev Store := List (String × FileMark)

/-- `fileMarks.get(k)`: first entry with key `k`, if any. -/
def mapGet : Store → String → Option FileMark
  | [], _ => none
  | e :: rest, k => if e.1 = k then some e.2 else mapGet rest k

/-- `fileMarks.has(k)`. -/
def mapHas : Store → String → Bool
  | [], _ => false
  | e :: rest, k => if e.1 = k then true else mapHas rest k

/-- `fileMarks.set(k, v)`: replace the existing entry for `k` in place,
or append a new entry at the end (ECMAScript `Map.prototype.set`). -/
def mapSet : Store → String → FileMark → Store
  | [], k, v => [(k, v)]
  | e :: rest, k, v => if e.1 = k then (k, v) :: rest else e :: mapSet rest k v

/-- `fileMarks.delete(k)`: remove the entry for `k` and report whether
an entry was present (ECMAScript `Map.prototype.delete`). -/
def mapDelete : Store → String → Store × Bool
  | [], _ => ([], false)
  | e :: rest, k =>
    if e.1 = k then (rest, true)
    else ((e :: (mapDelete rest k).1), (mapDelete rest k).2)

/-- Key uniqueness, the invariant every real `Map` state satisfies. -/
def nodupKeys : Store → Bool
  | [] => true
  | e :: rest => !(mapHas rest e.1) && nodupKeys rest

/-- The `vscode.FileDecoration` value built by the providers: badge,
tooltip, and the `ThemeColor` token it was constructed from. -/
structure FileDecoration where
  badge : String
  tooltip : String
  color : String
deriving DecidableEq, Repr

/-- Host-visible effects of the command handlers and persistence code:
firing `_onDidChangeFileDecorations` with one URI or a URI array,
writing the persistence file, and the two notification APIs. -/
inductive Eff where
  | fireSingle (uri : String)
  | fireMany (uris : List String)
  | writeFile (data : List (String × FileMark))
  | showErrorMessage (msg : String)
  | showWarningMessage (msg : String)
deriving DecidableEq, Repr

/-- Recognises the URI-array (multi-path) form of the change event. -/
def isFireMany : Eff → Bool
  | Eff.fireMany _ => true
  | _ => false

/-- Recognises a warning notification (`showWarningMessage`). -/
def isWarningMessage : Eff → Bool
  | Eff.showWarningMessage _ => true
  | _ => false

/-- `FileDecorationsProvider.updateDecorations(uri?)`: with a URI,
fire the change event for that single URI; without one, collect the
URIs of all marked files and fire the event for that array, but only
when the array is non-empty. -/
def updateDecorations (s : Store) (uri : Option String) : List Eff :=
  match uri with
  | some u => [Eff.fireSingle u]
  | none =>
    let markedUris := s.map Prod.fst
    if markedUris.length > 0 then [Eff.fireMany markedUris] else []

/-- `FileDecorationsProvider.provideFileDecoration(uri)`: look the path
up in `fileMarks`; absent means no decoration (`undefined`); otherwise
pick badge/tooltip/color by a `switch` on `mark.type` and, when the
note is non-empty (JS truthiness of `mark.note`), append `": " + note`
to the tooltip. -/
def provideFileDecoration (s : Store) (filePath : String) : Option FileDecoration :=
  match mapGet s filePath with
  | none => none
  | some mark =>
    let b : String × String × String :=
      match mark.type with
      | FileMarkType.READ => ("✅", "已读", "fileMarker.read")
      | FileMarkType.PARTIAL => ("🟠", "部分阅读", "fileMarker.partial")
      | FileMarkType.UNREAD => ("❗", "未读", "fileMarker.unread")
    let tooltip := if mark.note ≠ "" then b.2.1 ++ ": " ++ mark.note else b.2.1
    some { badge := b.1, tooltip := tooltip, color := b.2.2 }

/-- `saveMarks()`: copy `fileMarks` into a plain record (`data`) and
`JSON.stringify` it to the storage file; a thrown write error is caught
and surfaced via `showErrorMessage`. The write outcome is modelled by
the `writeOk` flag; the in-memory store is returned alongside the
effects (the function never touches `fileMarks`). -/
def saveMarks (s : Store) (writeOk : Bool) : Store × List Eff :=
  let data : List (String × FileMark) := s
  (s, if writeOk then [Eff.writeFile data] else [Eff.showErrorMessage "无法保存文件标记"])

/-- The persisted JSON object built by `saveMarks` from the store:
one `{kind, note, timestamp}` entry per key, in iteration order. -/
def serializeMarks (s : Store) : List (String × FileMark) := s

/-- `loadMarks()` success path: parse the persisted object, clear
`fileMarks`, then `set` every parsed entry in order. -/
def loadMarks (parsed : List (String × FileMark)) : Store :=
  parsed.foldl (fun acc e => mapSet acc e.1 e.2) []

/-- The `fileMarker.markFile` command's `onDidAccept` continuation,
after a kind was selected: read the optional note from the input box
(`undefined` on cancel, then `note || ''`), `fileMarks.set` the record
with `Date.now()`, call `updateDecorations(fileUri)`, then
`saveMarks()`. -/
def markFileOnDidAccept (s : Store) (filePath : String) (selected : FileMarkType)
    (note : Option String) (now : Nat) (writeOk : Bool) : Store × List Eff :=
  let s' := mapSet s filePath { type := selected, note := note.getD "", timestamp := now }
  let evs := updateDecorations s' (some filePath)
  let (s'', saveEvs) := saveMarks s' writeOk
  (s'', evs ++ saveEvs)

/-- The `fileMarker.clearMark` command: with no target file, warn and
stop; otherwise, only if the path is marked, delete it, call
`updateDecorations(fileUri)` (single-path form), and `saveMarks()`. -/
def clearMarkCommand (s : Store) (target : Option String) (writeOk : Bool) :
    Store × List Eff :=
  match target with
  | none => (s, [Eff.showWarningMessage "未选择文件"])
  | some filePath =>
    if mapHas s filePath then
      let s' := (mapDelete s filePath).1
      let evs := updateDecorations s' (some filePath)
      let (s'', saveEvs) := saveMarks s' writeOk
      (s'', evs ++ saveEvs)
    else (s, [])

/-- Record kept by the divergent `MarkManager` variant:
`{ label, color, note }` (no timestamp). -/
structure MMRecord where
  label : String
  color : String
  note : String
deriving DecidableEq, Repr

/-- `MarkManager.marks`, a plain object keyed by file path. -/
abbrev MarkManager := List (String × MMRecord)

/-- `MarkManager.getLabelColor(label)`. -/
def getLabelColor (label : String) : String :=
  if label = "✔️ Completed" then "#00ff00"
  else if label = "🕗 Halfway" then "#ff9900"
  else if label = "❌ Unread" then "#ff0000"
  else "#000000"

/-- `MarkManager.setMark(filePath, label, note)`: property assignment
on the `marks` object (replace or add). -/
def setMark : MarkManager → String → String → Option String → MarkManager
  | [], filePath, label, note =>
      [(filePath, { label := label, color := getLabelColor label, note := note.getD "" })]
  | e :: rest, filePath, label, note =>
      if e.1 = filePath then
        (filePath, { label := label, color := getLabelColor label, note := note.getD "" }) :: rest
      else e :: setMark rest filePath label note

/-- `MarkManager.getMark(filePath)`: property lookup, `undefined` when
absent. -/
def getMark : MarkManager → String → Option MMRecord
  | [], _ => none
  | e :: rest, filePath => if e.1 = filePath then some e.2 else getMark rest filePath

/-- `MarkDecorationProvider.provideFileDecoration(uri)` (the
`MarkManager`-backed variant): badge is the stored label, tooltip is
`mark.note || mark.label`, color is always
`editorGutter.modifiedBackground`. -/
def markDecorationProvider (m : MarkManager) (fsPath : String) : Option FileDecoration :=
  match getMark m fsPath with
  | none => none
  | some mark =>
      some { badge := mark.label
           , tooltip := if mark.note ≠ "" then mark.note else mark.label
           , color := "editorGutter.modifiedBackground" }

/-- Spec-side presentation table, stated with the specification's own
strings: kind `Read` ↦ badge ✅, tooltip base `"Read"`, token
`read-color`; `Partial` ↦ 🟠, `"Partially read"`, `partial-color`;
`Unread` ↦ ❗, `"Unread"`, `unread-color`; `": " + note` appended to
the tooltip exactly when the note is non-empty. -/
def present_spec (m : FileMark) : FileDecoration :=
  let badge : String :=
    match m.type with
    | FileMarkType.READ => "✅"
    | FileMarkType.PARTIAL => "🟠"
    | FileMarkType.UNREAD => "❗"
  let base : String :=
    match m.type with
    | FileMarkType.READ => "Read"
    | FileMarkType.PARTIAL => "Partially read"
    | FileMarkType.UNREAD => "Unread"
  let colorToken : String :=
    match m.type with
    | FileMarkType.READ => "read-color"
    | FileMarkType.PARTIAL => "partial-color"
    | FileMarkType.UNREAD => "unread-color"
  { badge := badge
  , tooltip := if m.note = "" then base else base ++ ": " ++ m.note
  , color := colorToken }

/-- Amended spec-side presentation table: same shape as the
specification's table, with the tooltip bases and color tokens the
code actually uses (`已读` / `部分阅读` / `未读`, `fileMarker.read` /
`fileMarker.partial` / `fileMarker.unread`). -/
def present_amended (m : FileMark) : FileDecoration :=
  let badge : String :=
    match m.type with
    | FileMarkType.READ => "✅"
    | FileMarkType.PARTIAL => "🟠"
    | FileMarkType.UNREAD => "❗"
  let base : String :=
    match m.type with
    | FileMarkType.READ => "已读"
    | FileMarkType.PARTIAL => "部分阅读"
    | FileMarkType.UNREAD => "未读"
  let colorToken : String :=
    match m.type with
    | FileMarkType.READ => "fileMarker.read"
    | FileMarkType.PARTIAL => "fileMarker.partial"
    | FileMarkType.UNREAD => "fileMarker.unread"
  { badge := badge
  , tooltip := if m.note = "" then base else base ++ ": " ++ m.note
  , color := colorToken }

/-! ### Basic lemmas about the `Map` operations -/

theorem mapGet_eq_none_of_not_has (s : Store) (k : String)
    (h : mapHas s k = false) : mapGet s k = none := by
  induction s with
  | nil => rfl
  | cons e rest ih =>
      by_cases hek : e.1 = k
      · simp [mapHas, hek] at h
      · simp [mapHas, hek] at h
        simp [mapGet, hek, ih h]

theorem mapHas_of_get_some (s : Store) (k : String) (v : FileMark)
    (h : mapGet s k = some v) : mapHas s k = true := by
  induction s with
  | nil => simp [mapGet] at h
  | cons e rest ih =>
      by_cases hek : e.1 = k
      · simp [mapHas, hek]
      · simp [mapGet, hek] at h
        simp [mapHas, hek, ih h]

theorem mapGet_mapSet_self (s : Store) (k : String) (v : FileMark) :
    mapGet (mapSet s k v) k = some v := by
  induction s with
  | nil => simp [mapSet, mapGet]
  | cons e rest ih =>
      by_cases hek : e.1 = k
      · simp [mapSet, hek, mapGet]
      · simp [mapSet, hek, mapGet, ih]

theorem mapSet_fresh (s : Store) (k : String) (v : FileMark)
    (h : mapHas s k = false) : mapSet s k v = s ++ [(k, v)] := by
  induction s with
  | nil => rfl
  | cons e rest ih =>
      by_cases hek : e.1 = k
      · simp [mapHas, hek] at h
      · simp [mapHas, hek] at h
        simp [mapSet, hek, ih h]

theorem mapHas_append (a b : Store) (k : String) :
    mapHas (a ++ b) k = (mapHas a k || mapHas b k) := by
  induction a with
  | nil => simp [mapHas]
  | cons e rest ih =>
      by_cases hek : e.1 = k <;> simp [mapHas, hek, ih]

theorem mapHas_of_mem (s : Store) (e : String × FileMark)
    (h : e ∈ s) : mapHas s e.1 = true := by
  induction s with
  | nil => simp at h
  | cons x rest ih =>
      rcases List.mem_cons.mp h with h1 | h1
      · subst h1; simp [mapHas]
      · by_cases hxk : x.1 = e.1 <;> simp [mapHas, hxk, ih h1]

theorem mapDelete_snd (s : Store) (k : String) :
    (mapDelete s k).2 = mapHas s k := by
  induction s with
  | nil => rfl
  | cons e rest ih =>
      by_cases hek : e.1 = k <;> simp [mapDelete, mapHas, hek, ih]

theorem mapDelete_not_has (s : Store) (k : String)
    (h : mapHas s k = false) : mapDelete s k = (s, false) := by
  induction s with
  | nil => rfl
  | cons e rest ih =>
      by_cases hek : e.1 = k
      · simp [mapHas, hek] at h
      · simp [mapHas, hek] at h
        simp [mapDelete, hek, ih h]

theorem nodupKeys_cons (e : String × FileMark) (rest : Store) :
    nodupKeys (e :: rest) = true ↔
      (mapHas rest e.1 = false ∧ nodupKeys rest = true) := by
  simp [nodupKeys, Bool.and_eq_true, Bool.not_eq_true']

theorem mapHas_mapDelete_self (s : Store) (k : String)
    (h : nodupKeys s = true) : mapHas (mapDelete s k).1 k = false := by
  induction s with
  | nil => rfl
  | cons e rest ih =>
      obtain ⟨h1, h2⟩ := (nodupKeys_cons e rest).mp h
      by_cases hek : e.1 = k
      · subst hek
        simp [mapDelete, h1]
      · simp [mapDelete, hek, mapHas, ih h2]

theorem foldl_mapSet_fresh (rest : Store) :
    ∀ acc : Store, (rest.all fun e => !(mapHas acc e.1)) = true →
      nodupKeys rest = true →
      rest.foldl (fun a e => mapSet a e.1 e.2) acc = acc ++ rest := by
  induction rest with
  | nil => intro acc _ _; simp
  | cons e rest' ih =>
      intro acc hall hnd
      rw [List.all_cons, Bool.and_eq_true] at hall
      obtain ⟨he, htail⟩ := hall
      rw [Bool.not_eq_true'] at he
      obtain ⟨hek, hnd'⟩ := (nodupKeys_cons e rest').mp hnd
      rw [List.foldl_cons, mapSet_fresh acc e.1 e.2 he]
      have hfresh : (rest'.all fun x => !(mapHas (acc ++ [(e.1, e.2)]) x.1)) = true := by
        rw [List.all_eq_true] at htail ⊢
        intro x hx
        have hx1 := htail x hx
        rw [Bool.not_eq_true'] at hx1 ⊢
        rw [mapHas_append]
        have hxe : mapHas [(e.1, e.2)] x.1 = false := by
          by_contra hc
          rw [Bool.not_eq_false] at hc
          have : e.1 = x.1 := by
            by_contra hne
            simp [mapHas, hne] at hc
          rw [this] at hek
          rw [mapHas_of_mem rest' x hx] at hek
          exact Bool.true_eq_false.mp hek
        rw [hx1, hxe]
        rfl
      rw [ih (acc ++ [(e.1, e.2)]) hfresh hnd']
      simp

/-! ### Claim theorems -/

/-- C1 (counterexample): the specification's presentation table does
not match the code. At the concrete record `{READ, "", 0}` stored for
`"/a.txt"`, `provideFileDecoration` returns tooltip `"已读"` and color
token `"fileMarker.read"`, not the spec table's `"Read"` /
`read-color`, so the decoration differs from `present_spec`. -/
theorem C1_spec_table_counterexample :
    provideFileDecoration
        [("/a.txt", { type := FileMarkType.READ, note := "", timestamp := 0 })] "/a.txt"
      ≠ some (present_spec { type := FileMarkType.READ, note := "", timestamp := 0 }) := by
  decide

/-- C1 (amended): the presentation mapping is pure and total over the
three kinds and follows the code's table: for every record stored for a
path, kind `READ` yields badge ✅, tooltip base `已读`, color token
`fileMarker.read`; `PARTIAL` yields 🟠, `部分阅读`, `fileMarker.partial`;
`UNREAD` yields ❗, `未读`, `fileMarker.unread`; and `": " + note` is
appended to the tooltip exactly when the note is non-empty, the tooltip
otherwise being exactly the base. -/
theorem C1_presentation_amended (s : Store) (p : String) (m : FileMark)
    (h : mapGet s p = some m) :
    provideFileDecoration s p = some (present_amended m) := by
  cases m with
  | mk ty note ts =>
      by_cases hn : note = "" <;>
        cases ty <;> simp [provideFileDecoration, h, present_amended, hn]

/-- Witness for C1: the amended table evaluated at a concrete stored
record of kind `READ` with a non-empty note. -/
theorem C1_presentation_amended_witness :
    (mapGet [("/a.txt", { type := FileMarkType.READ, note := "looks good", timestamp := 9 })]
        "/a.txt"
      = some { type := FileMarkType.READ, note := "looks good", timestamp := 9 })
    ∧ provideFileDecoration
        [("/a.txt", { type := FileMarkType.READ, note := "looks good", timestamp := 9 })]
        "/a.txt"
      = some (present_amended { type := FileMarkType.READ, note := "looks good", timestamp := 9 }) :=
  ⟨by decide, C1_presentation_amended _ _ _ (by decide)⟩

/-- C2: the `markFile` accept handler always succeeds (it is a total
function) and inserts or replaces the record for the path with exactly
the selected kind, the entered note or `""` when the input box was
cancelled, and the timestamp `now` sampled at the call (`Date.now()`);
afterwards `get` on that path returns exactly that record, whose
timestamp equals — hence is at least — the call time. -/
theorem C2_set_then_get (s : Store) (p : String) (kind : FileMarkType)
    (note : Option String) (now : Nat) (writeOk : Bool) :
    mapGet (markFileOnDidAccept s p kind note now writeOk).1 p
      = some { type := kind, note := note.getD "", timestamp := now } := by
  have hfst : (markFileOnDidAccept s p kind note now writeOk).1
      = mapSet s p { type := kind, note := note.getD "", timestamp := now } := rfl
  rw [hfst]
  exact mapGet_mapSet_self s p _

/-- C3: round-trip through persistence is the identity on the store
contents: serializing the mapping (`saveMarks`'s `data` object) and
reloading it into a fresh store (`loadMarks`) yields a mapping equal to
the original — same entries, kinds, notes, and timestamps exactly —
for every store satisfying the `Map` key-uniqueness invariant. -/
theorem C3_save_load_roundtrip (s : Store) (h : nodupKeys s = true) :
    loadMarks (serializeMarks s) = s := by
  have hfresh : (s.all fun e => !(mapHas ([] : Store) e.1)) = true := by
    rw [List.all_eq_true]; intro x _; rfl
  have hmain := foldl_mapSet_fresh s [] hfresh h
  simpa [loadMarks, serializeMarks] using hmain

/-- Witness for C3: round-trip on a concrete two-entry store. -/
theorem C3_save_load_roundtrip_witness :
    (nodupKeys [("/a.txt", { type := FileMarkType.READ, note := "ok", timestamp := 3 }),
                ("/b.txt", { type := FileMarkType.PARTIAL, note := "", timestamp := 7 })] = true)
    ∧ loadMarks (serializeMarks
        [("/a.txt", { type := FileMarkType.READ, note := "ok", timestamp := 3 }),
         ("/b.txt", { type := FileMarkType.PARTIAL, note := "", timestamp := 7 })])
      = [("/a.txt", { type := FileMarkType.READ, note := "ok", timestamp := 3 }),
         ("/b.txt", { type := FileMarkType.PARTIAL, note := "", timestamp := 7 })] :=
  ⟨by decide, C3_save_load_roundtrip _ (by decide)⟩

/-- C4 (counterexample): with `"/a.txt"` and `"/b.txt"` both marked,
clearing `"/a.txt"` emits exactly a single-path invalidation for
`"/a.txt"` plus the persistence write — no multi-path (full-refresh)
event covering the currently marked paths is fired, contrary to the
claim. -/
theorem C4_full_refresh_counterexample :
    ((clearMarkCommand
        [("/a.txt", { type := FileMarkType.READ, note := "", timestamp := 1 }),
         ("/b.txt", { type := FileMarkType.UNREAD, note := "", timestamp := 2 })]
        (some "/a.txt") true).2
      = [Eff.fireSingle "/a.txt",
         Eff.writeFile [("/b.txt", { type := FileMarkType.UNREAD, note := "", timestamp := 2 })]])
    ∧ (((clearMarkCommand
        [("/a.txt", { type := FileMarkType.READ, note := "", timestamp := 1 }),
         ("/b.txt", { type := FileMarkType.UNREAD, note := "", timestamp := 2 })]
        (some "/a.txt") true).2.any isFireMany) = false) := by
  decide

/-- C4 (amended): when `"/a.txt"` holds a mark and the clear command is
invoked on it, afterwards `get("/a.txt")` returns absent and a
single-path invalidation signal for the cleared path is emitted (first,
followed only by persistence effects); no multi-path full-refresh
signal is fired. -/
theorem C4_clear_amended (s : Store) (m : FileMark) (writeOk : Bool)
    (hnd : nodupKeys s = true) (h : mapGet s "/a.txt" = some m) :
    mapGet (clearMarkCommand s (some "/a.txt") writeOk).1 "/a.txt" = none
    ∧ (clearMarkCommand s (some "/a.txt") writeOk).2.head?
        = some (Eff.fireSingle "/a.txt")
    ∧ ((clearMarkCommand s (some "/a.txt") writeOk).2.any isFireMany) = false := by
  have hhas : mapHas s "/a.txt" = true := mapHas_of_get_some s _ m h
  have hgone : mapGet (mapDelete s "/a.txt").1 "/a.txt" = none :=
    mapGet_eq_none_of_not_has _ _ (mapHas_mapDelete_self s "/a.txt" hnd)
  cases writeOk <;>
    simp [clearMarkCommand, hhas, saveMarks, updateDecorations, isFireMany, hgone]

/-- Witness for C4 (amended): clearing `"/a.txt"` in a concrete
two-entry store with a successful write. -/
theorem C4_clear_amended_witness :
    (nodupKeys [("/a.txt", { type := FileMarkType.READ, note := "", timestamp := 1 }),
                ("/b.txt", { type := FileMarkType.UNREAD, note := "", timestamp := 2 })] = true)
    ∧ (mapGet [("/a.txt", { type := FileMarkType.READ, note := "", timestamp := 1 }),
               ("/b.txt", { type := FileMarkType.UNREAD, note := "", timestamp := 2 })] "/a.txt"
        = some { type := FileMarkType.READ, note := "", timestamp := 1 })
    ∧ (mapGet (clearMarkCommand
          [("/a.txt", { type := FileMarkType.READ, note := "", timestamp := 1 }),
           ("/b.txt", { type := FileMarkType.UNREAD, note := "", timestamp := 2 })]
          (some "/a.txt") true).1 "/a.txt" = none
      ∧ (clearMarkCommand
          [("/a.txt", { type := FileMarkType.READ, note := "", timestamp := 1 }),
           ("/b.txt", { type := FileMarkType.UNREAD, note := "", timestamp := 2 })]
          (some "/a.txt") true).2.head? = some (Eff.fireSingle "/a.txt")
      ∧ ((clearMarkCommand
          [("/a.txt", { type := FileMarkType.READ, note := "", timestamp := 1 }),
           ("/b.txt", { type := FileMarkType.UNREAD, note := "", timestamp := 2 })]
          (some "/a.txt") true).2.any isFireMany) = false) :=
  ⟨by decide, by decide,
    C4_clear_amended _ { type := FileMarkType.READ, note := "", timestamp := 1 } true
      (by decide) (by decide)⟩

/-- C5: overwrite law (last write wins, no merge): marking path `p`
with kind `A` and note `x`, then with kind `B` and note `y`, leaves
`get(p)` equal to exactly `{B, y, t2}` where `t2` is the second call's
timestamp; no field of the first record survives. -/
theorem C5_overwrite_last_write_wins (s : Store) (p : String)
    (A B : FileMarkType) (x y : String) (t1 t2 : Nat) (ok1 ok2 : Bool) :
    mapGet ((markFileOnDidAccept (markFileOnDidAccept s p A (some x) t1 ok1).1
        p B (some y) t2 ok2).1) p
      = some { type := B, note := y, timestamp := t2 } := by
  have hfst : ∀ (st : Store) (k : FileMarkType) (n : Option String) (t : Nat) (ok : Bool),
      (markFileOnDidAccept st p k n t ok).1
        = mapSet st p { type := k, note := n.getD "", timestamp := t } :=
    fun _ _ _ _ _ => rfl
  rw [hfst, hfst]
  exact mapGet_mapSet_self _ p _

/-- C6: clear is idempotent and reports removal: `fileMarks.delete(p)`
(the store-level clear guarding the clear command) returns true exactly
when a record was present and removed; deleting an absent path is a
no-op returning false; and a second delete in a row returns false and
leaves the store unchanged. After a delete, `get(p)` is absent. -/
theorem C6_clear_idempotent (s : Store) (p : String) (h : nodupKeys s = true) :
    (mapDelete s p).2 = mapHas s p
    ∧ (mapHas s p = false → mapDelete s p = (s, false))
    ∧ mapDelete (mapDelete s p).1 p = ((mapDelete s p).1, false)
    ∧ mapGet (mapDelete s p).1 p = none := by
  have h1 := mapHas_mapDelete_self s p h
  exact ⟨mapDelete_snd s p, fun hh => mapDelete_not_has s p hh,
    mapDelete_not_has _ p h1, mapGet_eq_none_of_not_has _ p h1⟩

/-- Witness for C6: deleting `"/a.txt"` from a concrete one-entry
store. -/
theorem C6_clear_idempotent_witness :
    (nodupKeys [("/a.txt", { type := FileMarkType.UNREAD, note := "", timestamp := 5 })] = true)
    ∧ ((mapDelete [("/a.txt", { type := FileMarkType.UNREAD, note := "", timestamp := 5 })] "/a.txt").2
        = mapHas [("/a.txt", { type := FileMarkType.UNREAD, note := "", timestamp := 5 })] "/a.txt"
      ∧ (mapHas [("/a.txt", { type := FileMarkType.UNREAD, note := "", timestamp := 5 })] "/a.txt" = false →
          mapDelete [("/a.txt", { type := FileMarkType.UNREAD, note := "", timestamp := 5 })] "/a.txt"
            = ([("/a.txt", { type := FileMarkType.UNREAD, note := "", timestamp := 5 })], false))
      ∧ mapDelete (mapDelete [("/a.txt", { type := FileMarkType.UNREAD, note := "", timestamp := 5 })] "/a.txt").1 "/a.txt"
          = ((mapDelete [("/a.txt", { type := FileMarkType.UNREAD, note := "", timestamp := 5 })] "/a.txt").1, false)
      ∧ mapGet (mapDelete [("/a.txt", { type := FileMarkType.UNREAD, note := "", timestamp := 5 })] "/a.txt").1 "/a.txt"
          = none) :=
  ⟨by decide, C6_clear_idempotent _ "/a.txt" (by decide)⟩

/-- C7: lookups never fail and absence is not an error: for any path
not in the store (never set, or already cleared), `get` returns absent
(`undefined`) and both decoration providers return "no decoration"
(`undefined`) rather than raising; `get` is a pure function of the
store and leaves it untouched by construction. -/
theorem C7_absent_lookup (s : Store) (p : String) (mm : MarkManager) (q : String)
    (h1 : mapHas s p = false) (h2 : getMark mm q = none) :
    mapGet s p = none ∧ provideFileDecoration s p = none
    ∧ markDecorationProvider mm q = none := by
  have hg := mapGet_eq_none_of_not_has s p h1
  exact ⟨hg, by simp [provideFileDecoration, hg], by simp [markDecorationProvider, h2]⟩

/-- Witness for C7: a never-set path in a non-empty store and in an
empty `MarkManager`. -/
theorem C7_absent_lookup_witness :
    (mapHas [("/a.txt", { type := FileMarkType.READ, note := "", timestamp := 1 })] "/zzz" = false)
    ∧ (getMark ([] : MarkManager) "/zzz" = none)
    ∧ (mapGet [("/a.txt", { type := FileMarkType.READ, note := "", timestamp := 1 })] "/zzz" = none
      ∧ provideFileDecoration [("/a.txt", { type := FileMarkType.READ, note := "", timestamp := 1 })] "/zzz" = none
      ∧ markDecorationProvider ([] : MarkManager) "/zzz" = none) :=
  ⟨by decide, by decide, C7_absent_lookup _ "/zzz" [] "/zzz" (by decide) (by decide)⟩

/-- C8 (counterexample): when the storage write fails, the failure is
surfaced through `showErrorMessage` — an error notification, not a
warning: the emitted effect list is non-empty yet contains no
`showWarningMessage` effect. -/
theorem C8_warning_counterexample :
    ((saveMarks [("/a.txt", { type := FileMarkType.READ, note := "", timestamp := 0 })] false).2 ≠ [])
    ∧ (((saveMarks [("/a.txt", { type := FileMarkType.READ, note := "", timestamp := 0 })] false).2.any
        isWarningMessage) = false) := by
  decide

/-- C8 (amended): atomicity of the store under persistence failure:
a failing save leaves the in-memory mapping exactly as it was — the
store that `saveMarks` runs over is returned untouched, the mark and
clear commands produce the same resulting store whether the write
succeeds or fails — and the failure is surfaced only as a non-fatal
error notification (`showErrorMessage`). -/
theorem C8_save_failure_amended (s : Store) (p : String) (kind : FileMarkType)
    (note : Option String) (now : Nat) :
    (saveMarks s false).1 = s
    ∧ (saveMarks s false).2 = [Eff.showErrorMessage "无法保存文件标记"]
    ∧ (markFileOnDidAccept s p kind note now false).1
        = (markFileOnDidAccept s p kind note now true).1
    ∧ (clearMarkCommand s (some p) false).1 = (clearMarkCommand s (some p) true).1 := by
  refine ⟨rfl, rfl, rfl, ?_⟩
  cases hh : mapHas s p <;> simp [clearMarkCommand, hh, saveMarks]

/-- C9: when `updateDecorations` is invoked in its full-refresh form
(no URI) the host receives an invalidation event exactly when at least
one path is currently marked; with an empty store nothing is fired. -/
theorem C9_empty_store_no_event (s : Store) :
    updateDecorations s none = [] ↔ s = [] := by
  cases s <;> simp [updateDecorations]

/-- C10: clearing a path that holds no mark changes nothing: the store
is returned unchanged and no effect at all — no persistence write, no
decoration-change event — is emitted. -/
theorem C10_clear_absent_frame (s : Store) (p : String) (writeOk : Bool)
    (h : mapHas s p = false) :
    clearMarkCommand s (some p) writeOk = (s, []) := by
  simp [clearMarkCommand, h]

/-- Witness for C10: clearing an unmarked path in a concrete non-empty
store. -/
theorem C10_clear_absent_frame_witness :
    (mapHas [("/a.txt", { type := FileMarkType.READ, note := "", timestamp := 1 })] "/zzz" = false)
    ∧ clearMarkCommand [("/a.txt", { type := FileMarkType.READ, note := "", timestamp := 1 })]
        (some "/zzz") true
      = ([("/a.txt", { type := FileMarkType.READ, note := "", timestamp := 1 })], []) :=
  ⟨by decide, C10_clear_absent_frame _ "/zzz" true (by decide)⟩

end MarkFileRead
